import Mathlib

/-!
Shallow embedding of `dannyrmc/duplicate-asset-hash`: three Python scripts
(`main.py`, `find-duplicates-to-text.py`, `find-duplicates-to-csv.py`) that
scan a directory for near-duplicates of a reference image via a perceptual
hash.  We embed the parts the claims are about: the Hamming-distance
classifier with its hardcoded threshold 5, the candidate loop (self-match
skip, per-candidate exception recovery, match collection), the identifier
extraction of the CSV variant (`extract_product_id` and
`os.path.splitext`), and the rendering of the two output formats.

Image decoding is external I/O: a candidate is modelled as its path
together with the outcome of `Image.open` + `imagehash.phash`
(`Option (List Bool)`, `none` when the call raises).  `os.path.abspath`
depends on the process working directory, so the loop is parametrised over
a path-resolution function.
-/

namespace DupAssetHash

/-- A perceptual hash is a fixed-length bit sequence (imagehash stores a
boolean numpy array; `phash` produces 64 bits). -/
abbrev Fingerprint := List Bool

/-- `imagehash.ImageHash.__sub__`: the Hamming distance, the count of bit
positions at which the two flattened bit arrays differ. -/
def hammingDistance (a b : Fingerprint) : Nat :=
  (a.zip b).countP fun p => p.1 != p.2

/-- The similarity threshold hardcoded in all three scripts:
`if reference_hash - img_hash < 5`. -/
def similarityThreshold : Nat := 5

/-- `os.path.basename`: the part of the path after the last slash (the
maximal slash-free suffix of the path). -/
def basename (p : String) : String :=
  String.mk ((p.toList.reverse.takeWhile fun c => c ≠ '/').reverse)

/-- `os.path.splitext(filename)[0]` for a plain filename (no directory
separators): everything before the last dot, except that leading dots of
the name never start an extension (`.hidden` has no extension). -/
def splitextStem (f : String) : String :=
  let cs := f.toList
  let leading := (cs.takeWhile fun c => c = '.').length
  match ((cs.enum.filter fun p => p.2 = '.').map fun p => p.1).getLast? with
  | none => f
  | some d => if leading < d then String.mk (cs.take d) else f

/-- `extract_product_id` from `find-duplicates-to-csv.py`:

    match = re.match(r"^([^_]+)_", filename)
    return match.group(1) if match else filename

The regex matches iff the filename starts with at least one non-underscore
character followed by an underscore; the captured group is then the maximal
leading run of non-underscore characters. -/
def extract_product_id (filename : String) : String :=
  let pre := filename.toList.takeWhile fun c => c ≠ '_'
  if pre.length ≠ 0 ∧ pre.length < filename.toList.length then
    String.mk pre
  else
    filename

/-- A candidate file produced by the directory walk: its path and the
outcome of `Image.open` + `imagehash.phash` on it (`none`: the call
raised and the `except` branch runs). -/
structure Candidate where
  path : String
  decode : Option Fingerprint
deriving Repr, DecidableEq

/-- A row of the CSV output: `[product_id, asset_id, filename]`. -/
structure MatchRecord where
  productId : String
  assetId : String
  filename : String
deriving Repr, DecidableEq

/-- The candidate loop of `main.py` / `find-duplicates-to-text.py`
(lines 50-67): skip a candidate whose resolved absolute path equals the
reference image's, recover locally from a decode failure, and append the
basename of every candidate whose hash is strictly within the threshold.
`resolve` models `os.path.abspath`. -/
def findDuplicatesTextLoop (resolve : String → String) (refPath : String)
    (refHash : Fingerprint) : List Candidate → List String
  | [] => []
  | c :: rest =>
    if resolve c.path = resolve refPath then
      findDuplicatesTextLoop resolve refPath refHash rest
    else
      match c.decode with
      | none => findDuplicatesTextLoop resolve refPath refHash rest
      | some h =>
        if hammingDistance refHash h < similarityThreshold then
          basename c.path :: findDuplicatesTextLoop resolve refPath refHash rest
        else
          findDuplicatesTextLoop resolve refPath refHash rest

/-- The candidate loop of `find-duplicates-to-csv.py` (lines 57-81): same
skip / recovery / threshold logic, but a match emits
`[product_id, asset_id, filename]`. -/
def findDuplicatesCsvLoop (resolve : String → String) (refPath : String)
    (refHash : Fingerprint) : List Candidate → List MatchRecord
  | [] => []
  | c :: rest =>
    if resolve c.path = resolve refPath then
      findDuplicatesCsvLoop resolve refPath refHash rest
    else
      match c.decode with
      | none => findDuplicatesCsvLoop resolve refPath refHash rest
      | some h =>
        if hammingDistance refHash h < similarityThreshold then
          let fn := basename c.path
          { productId := extract_product_id fn
            assetId := splitextStem fn
            filename := fn } :: findDuplicatesCsvLoop resolve refPath refHash rest
        else
          findDuplicatesCsvLoop resolve refPath refHash rest

/-- Python `sep.join(items)`. -/
def pyJoin (sep : String) : List String → String
  | [] => ""
  | [x] => x
  | x :: y :: rest => x ++ sep ++ pyJoin sep (y :: rest)

/-- Rendering of the text output (`main.py` lines 74-84): an empty file
when no duplicates were found, otherwise the newline-join of the
filenames. -/
def renderText (dups : List String) : String :=
  if dups.length = 0 then "" else pyJoin "\n" dups

/-- One CSV field under `csv.writer`'s default QUOTE_MINIMAL dialect: the
field is wrapped in double quotes (with inner quotes doubled) iff it
contains a delimiter, quote, or line-break character. -/
def csvField (s : String) : String :=
  if s.toList.any fun c => c = ',' ∨ c = '"' ∨ c = '\r' ∨ c = '\n' then
    "\"" ++ String.mk (s.toList.flatMap fun c =>
      if c = '"' then ['"', '"'] else [c]) ++ "\""
  else
    s

/-- One CSV row: comma-separated fields terminated by CRLF
(`csv.writer`'s default line terminator). -/
def csvRow (fields : List String) : String :=
  pyJoin "," (fields.map csvField) ++ "\r\n"

/-- Rendering of the CSV output (`find-duplicates-to-csv.py` lines
86-97): when no duplicates were found the file is created empty
(`open(output_file_path, 'w').close()`); otherwise the header row is
written followed by one row per match. -/
def renderCsv (dups : List MatchRecord) : String :=
  if dups.isEmpty then
    ""
  else
    csvRow ["Product ID", "Asset ID", "Filename"]
      ++ String.join (dups.map fun r => csvRow [r.productId, r.assetId, r.filename])

/-- The whole run of `main.py` / `find-duplicates-to-text.py` as a
function to the content of the output file: `none` means the reference
image failed to decode, the function returned at line 33, and no output
file was created or modified. -/
def runText (resolve : String → String) (refPath : String)
    (refDecode : Option Fingerprint) (candidates : List Candidate) :
    Option String :=
  match refDecode with
  | none => none
  | some refHash =>
    some (renderText (findDuplicatesTextLoop resolve refPath refHash candidates))

/-- The whole run of `find-duplicates-to-csv.py` as a function to the
content of the output file: `none` means the reference image failed to
decode and no output file was created or modified. -/
def runCsv (resolve : String → String) (refPath : String)
    (refDecode : Option Fingerprint) (candidates : List Candidate) :
    Option String :=
  match refDecode with
  | none => none
  | some refHash =>
    some (renderCsv (findDuplicatesCsvLoop resolve refPath refHash candidates))

/-- The per-candidate classification of the text loop, written
declaratively: `none` when the candidate is skipped (self-match), fails
to decode, or is at distance ≥ threshold; `some` basename on a match. -/
def classifyText (resolve : String → String) (refPath : String)
    (refHash : Fingerprint) (c : Candidate) : Option String :=
  if resolve c.path = resolve refPath then none
  else
    match c.decode with
    | none => none
    | some h =>
      if hammingDistance refHash h < similarityThreshold then
        some (basename c.path)
      else none

/-- The per-candidate classification of the CSV loop, written
declaratively. -/
def classifyCsv (resolve : String → String) (refPath : String)
    (refHash : Fingerprint) (c : Candidate) : Option MatchRecord :=
  if resolve c.path = resolve refPath then none
  else
    match c.decode with
    | none => none
    | some h =>
      if hammingDistance refHash h < similarityThreshold then
        some { productId := extract_product_id (basename c.path)
               assetId := splitextStem (basename c.path)
               filename := basename c.path }
      else none

/-- The leading underscore-delimited token of a filename, read off the
spec's words: what precedes the first `_`. -/
def leadingToken (f : String) : String :=
  String.mk (f.toList.takeWhile fun c => c ≠ '_')

/-! ## Helper lemmas -/

/-- The text-variant candidate loop is the order-preserving `filterMap`
of the per-candidate classification. -/
theorem textLoop_eq_filterMap (resolve : String → String) (refPath : String)
    (refHash : Fingerprint) (cs : List Candidate) :
    findDuplicatesTextLoop resolve refPath refHash cs
      = cs.filterMap (classifyText resolve refPath refHash) := by
  induction cs with
  | nil => rfl
  | cons c rest ih =>
    simp only [findDuplicatesTextLoop, classifyText, List.filterMap_cons]
    by_cases hp : resolve c.path = resolve refPath
    · simp [hp, ih]
    · simp only [hp, if_false]
      cases c.decode with
      | none => simpa using ih
      | some h =>
        by_cases hd : hammingDistance refHash h < similarityThreshold
        · simp [hd, ih]
        · simp [hd, ih]

/-- The CSV-variant candidate loop is the order-preserving `filterMap`
of the per-candidate classification. -/
theorem csvLoop_eq_filterMap (resolve : String → String) (refPath : String)
    (refHash : Fingerprint) (cs : List Candidate) :
    findDuplicatesCsvLoop resolve refPath refHash cs
      = cs.filterMap (classifyCsv resolve refPath refHash) := by
  induction cs with
  | nil => rfl
  | cons c rest ih =>
    simp only [findDuplicatesCsvLoop, classifyCsv, List.filterMap_cons]
    by_cases hp : resolve c.path = resolve refPath
    · simp [hp, ih]
    · simp only [hp, if_false]
      cases c.decode with
      | none => simpa using ih
      | some h =>
        by_cases hd : hammingDistance refHash h < similarityThreshold
        · simp [hd, ih]
        · simp [hd, ih]

/-- A candidate whose classification is `none` contributes nothing to
the text loop, wherever it sits in the traversal. -/
theorem textLoop_skip (resolve : String → String) (refPath : String)
    (refHash : Fingerprint) (pre post : List Candidate) (c : Candidate)
    (h : classifyText resolve refPath refHash c = none) :
    findDuplicatesTextLoop resolve refPath refHash (pre ++ c :: post)
      = findDuplicatesTextLoop resolve refPath refHash (pre ++ post) := by
  simp [textLoop_eq_filterMap, List.filterMap_append, List.filterMap_cons, h]

/-- A candidate whose classification is `none` contributes nothing to
the CSV loop, wherever it sits in the traversal. -/
theorem csvLoop_skip (resolve : String → String) (refPath : String)
    (refHash : Fingerprint) (pre post : List Candidate) (c : Candidate)
    (h : classifyCsv resolve refPath refHash c = none) :
    findDuplicatesCsvLoop resolve refPath refHash (pre ++ c :: post)
      = findDuplicatesCsvLoop resolve refPath refHash (pre ++ post) := by
  simp [csvLoop_eq_filterMap, List.filterMap_append, List.filterMap_cons, h]

/-- A `filterMap` whose hits all come from `g` is a sublist of the map
of `g`. -/
theorem filterMap_sublist_map {α β : Type} (f : α → Option β) (g : α → β)
    (hfg : ∀ a b, f a = some b → b = g a) (l : List α) :
    List.Sublist (l.filterMap f) (l.map g) := by
  induction l with
  | nil => simp
  | cons a t ih =>
    rw [List.filterMap_cons, List.map_cons]
    cases hfa : f a with
    | none => exact ih.cons (g a)
    | some b => rw [hfg a b hfa]; exact ih.cons₂ (g a)

/-- The leading run of non-underscore characters is strictly shorter
than the whole list exactly when the list contains an underscore. -/
theorem takeWhile_ne_lt_iff (l : List Char) :
    (l.takeWhile fun c => c ≠ '_').length < l.length ↔ '_' ∈ l := by
  induction l with
  | nil => simp
  | cons a t ih =>
    rw [List.takeWhile_cons]
    by_cases ha : a = '_'
    · have hd : (decide (a ≠ '_')) = false := by simp [ha]
      rw [hd]
      simp only [Bool.false_eq_true, if_false, List.length_nil, List.length_cons]
      constructor
      · intro _; exact List.mem_cons.mpr (Or.inl ha.symm)
      · intro _; exact Nat.succ_pos _
    · have hd : (decide (a ≠ '_')) = true := by simp [ha]
      rw [hd]
      simp only [if_true, List.length_cons, List.mem_cons]
      rw [Nat.succ_lt_succ_iff]
      constructor
      · intro hlt; exact Or.inr (ih.mp hlt)
      · intro hm
        rcases hm with hm | hm
        · exact absurd hm.symm ha
        · exact ih.mpr hm

/-- The leading token is nonempty as a string iff the underlying
character run is nonempty. -/
theorem leadingToken_ne_iff (f : String) :
    (f.toList.takeWhile fun c => c ≠ '_').length ≠ 0 ↔ leadingToken f ≠ "" := by
  rw [ne_eq, List.length_eq_zero, ne_eq]
  constructor
  · intro hne he
    apply hne
    have := congrArg String.data he
    simpa [leadingToken] using this
  · intro hne he
    apply hne
    unfold leadingToken
    rw [he]

/-- `extract_product_id`, characterised through the spec's vocabulary:
the leading underscore-delimited token when the filename contains an
underscore and that token is nonempty, the full filename otherwise. -/
theorem extract_product_id_eq (f : String) :
    extract_product_id f =
      if '_' ∈ f.toList ∧ leadingToken f ≠ "" then leadingToken f else f := by
  have h1 := takeWhile_ne_lt_iff f.toList
  have h2 := leadingToken_ne_iff f
  by_cases h : '_' ∈ f.toList ∧ leadingToken f ≠ ""
  · have he : extract_product_id f
        = String.mk (f.toList.takeWhile fun c => c ≠ '_') := by
      unfold extract_product_id
      exact if_pos ⟨h2.mpr h.2, h1.mpr h.1⟩
    rw [he, if_pos h]
    rfl
  · have hcond : ¬ ((f.toList.takeWhile fun c => c ≠ '_').length ≠ 0 ∧
        (f.toList.takeWhile fun c => c ≠ '_').length < f.toList.length) := by
      intro hc
      exact h ⟨h1.mp hc.2, h2.mp hc.1⟩
    have he : extract_product_id f = f := by
      unfold extract_product_id
      exact if_neg hcond
    rw [he, if_neg h]

/-- Joining one more element onto a nonempty join inserts exactly one
separator before it. -/
theorem pyJoin_append_singleton (sep l : String) (ds : List String)
    (h : ds ≠ []) :
    pyJoin sep (ds ++ [l]) = pyJoin sep ds ++ sep ++ l := by
  induction ds with
  | nil => exact absurd rfl h
  | cons x t ih =>
    cases t with
    | nil => rfl
    | cons y u =>
      have hx : pyJoin sep ((x :: y :: u) ++ [l])
          = x ++ sep ++ pyJoin sep ((y :: u) ++ [l]) := rfl
      have hx2 : pyJoin sep (x :: y :: u) = x ++ sep ++ pyJoin sep (y :: u) := rfl
      rw [hx, ih (by simp), hx2]
      simp only [String.append_assoc]

/-! ## Claims -/

/-- C1: with the hardcoded default threshold 5 and reference/candidate
fingerprints of equal length, a candidate (distinct from the reference
path) is classified as a duplicate iff the Hamming distance is strictly
below the threshold; distance exactly 5 is not a match, and distance
4 = threshold - 1 is a match, in both the text and the CSV variant. -/
theorem threshold_strict_classification (resolve : String → String)
    (refPath p : String) (refHash h : Fingerprint)
    (hlen : refHash.length = h.length)
    (hne : resolve p ≠ resolve refPath) :
    similarityThreshold = 5
    ∧ (findDuplicatesTextLoop resolve refPath refHash [⟨p, some h⟩] = [basename p]
        ↔ hammingDistance refHash h < similarityThreshold)
    ∧ (hammingDistance refHash h = similarityThreshold
        → findDuplicatesTextLoop resolve refPath refHash [⟨p, some h⟩] = []
          ∧ findDuplicatesCsvLoop resolve refPath refHash [⟨p, some h⟩] = [])
    ∧ (hammingDistance refHash h = similarityThreshold - 1
        → findDuplicatesTextLoop resolve refPath refHash [⟨p, some h⟩] = [basename p]
          ∧ findDuplicatesCsvLoop resolve refPath refHash [⟨p, some h⟩] ≠ []) := by
  have htext : findDuplicatesTextLoop resolve refPath refHash [⟨p, some h⟩]
      = if hammingDistance refHash h < similarityThreshold
        then [basename p] else [] := by
    by_cases hd : hammingDistance refHash h < similarityThreshold
    · simp [findDuplicatesTextLoop, hne, hd]
    · simp [findDuplicatesTextLoop, hne, hd]
  have hcsv : findDuplicatesCsvLoop resolve refPath refHash [⟨p, some h⟩]
      = if hammingDistance refHash h < similarityThreshold
        then [{ productId := extract_product_id (basename p)
                assetId := splitextStem (basename p)
                filename := basename p }] else [] := by
    by_cases hd : hammingDistance refHash h < similarityThreshold
    · simp [findDuplicatesCsvLoop, hne, hd]
    · simp [findDuplicatesCsvLoop, hne, hd]
  refine ⟨rfl, ?_, ?_, ?_⟩
  · rw [htext]
    by_cases hd : hammingDistance refHash h < similarityThreshold
    · simp [hd]
    · simp [hd]
  · intro hd5
    have hnd : ¬ hammingDistance refHash h < similarityThreshold := by
      rw [hd5]; exact Nat.lt_irrefl _
    rw [htext, hcsv]
    simp [hnd]
  · intro hd4
    have hd : hammingDistance refHash h < similarityThreshold := by
      rw [hd4]; decide
    rw [htext, hcsv]
    simp [hd]

/-- Witness for C1: concrete 8-bit fingerprints at Hamming distance 4,
reference and candidate on distinct paths. -/
theorem threshold_strict_classification_witness :
    similarityThreshold = 5
    ∧ (findDuplicatesTextLoop id "ref.jpg"
          [true, true, true, true, true, true, true, true]
          [⟨"cand.jpg", some [false, false, false, false, true, true, true, true]⟩]
        = [basename "cand.jpg"]
        ↔ hammingDistance [true, true, true, true, true, true, true, true]
            [false, false, false, false, true, true, true, true]
            < similarityThreshold)
    ∧ (hammingDistance [true, true, true, true, true, true, true, true]
          [false, false, false, false, true, true, true, true] = similarityThreshold
        → findDuplicatesTextLoop id "ref.jpg"
            [true, true, true, true, true, true, true, true]
            [⟨"cand.jpg", some [false, false, false, false, true, true, true, true]⟩] = []
          ∧ findDuplicatesCsvLoop id "ref.jpg"
              [true, true, true, true, true, true, true, true]
              [⟨"cand.jpg", some [false, false, false, false, true, true, true, true]⟩] = [])
    ∧ (hammingDistance [true, true, true, true, true, true, true, true]
          [false, false, false, false, true, true, true, true]
          = similarityThreshold - 1
        → findDuplicatesTextLoop id "ref.jpg"
            [true, true, true, true, true, true, true, true]
            [⟨"cand.jpg", some [false, false, false, false, true, true, true, true]⟩]
            = [basename "cand.jpg"]
          ∧ findDuplicatesCsvLoop id "ref.jpg"
              [true, true, true, true, true, true, true, true]
              [⟨"cand.jpg", some [false, false, false, false, true, true, true, true]⟩]
              ≠ []) :=
  threshold_strict_classification id "ref.jpg" "cand.jpg"
    [true, true, true, true, true, true, true, true]
    [false, false, false, false, true, true, true, true]
    (by decide) (by decide)

/-- C2 counterexample: a run of the CSV variant that finds zero matches
creates the output file with empty content, which is not the header row
(neither with nor without the CRLF terminator). -/
theorem csv_zero_match_not_header_only :
    runCsv id "ref.jpg" (some [true, true, true, true, true, true, true, true])
        [⟨"unrelated.png",
          some [false, false, false, false, false, false, false, false]⟩]
      = some ""
    ∧ ("" : String) ≠ "Product ID,Asset ID,Filename\r\n"
    ∧ ("" : String) ≠ "Product ID,Asset ID,Filename" :=
  ⟨by decide, by decide, by decide⟩

/-- C2 (amended): when a run of the CSV variant finds zero matches it
still creates the output file, but that file is zero-byte empty — it
contains no header row. -/
theorem csv_zero_match_creates_empty_file (resolve : String → String)
    (refPath : String) (refHash : Fingerprint) (cs : List Candidate)
    (h : findDuplicatesCsvLoop resolve refPath refHash cs = []) :
    runCsv resolve refPath (some refHash) cs = some "" := by
  simp [runCsv, renderCsv, h]

/-- Witness for the amended C2 at an empty candidate list. -/
theorem csv_zero_match_creates_empty_file_witness :
    runCsv id "ref.jpg" (some [true]) [] = some "" :=
  csv_zero_match_creates_empty_file id "ref.jpg" [true] [] rfl

/-- C3 counterexample: for `noUnderscore.png` the derived product id is
the full filename with its extension, not the stem `noUnderscore`. -/
theorem no_underscore_product_id_not_stem :
    extract_product_id "noUnderscore.png" = "noUnderscore.png"
    ∧ splitextStem "noUnderscore.png" = "noUnderscore"
    ∧ extract_product_id "noUnderscore.png" ≠ splitextStem "noUnderscore.png" :=
  ⟨by decide, by decide, by decide⟩

/-- C3 (amended): for every filename containing no underscore the
derived product id equals the FULL filename, extension included;
`noUnderscore.png` yields `noUnderscore.png`. -/
theorem no_underscore_product_id_full_filename (f : String)
    (h : '_' ∉ f.toList) : extract_product_id f = f := by
  rw [extract_product_id_eq, if_neg]
  intro hc
  exact h hc.1

/-- Witness for the amended C3 at `noUnderscore.png`. -/
theorem no_underscore_product_id_full_filename_witness :
    extract_product_id "noUnderscore.png" = "noUnderscore.png" :=
  no_underscore_product_id_full_filename "noUnderscore.png" (by decide)

/-- C4: a candidate whose resolved absolute path equals the reference
image's resolved absolute path is skipped in both variants: the scan
result is the same as if the candidate were absent, independently of its
decode outcome, and on its own it produces no output at all. -/
theorem self_match_skipped (resolve : String → String) (refPath : String)
    (refHash : Fingerprint) (pre post : List Candidate) (c : Candidate)
    (h : resolve c.path = resolve refPath) :
    findDuplicatesTextLoop resolve refPath refHash (pre ++ c :: post)
      = findDuplicatesTextLoop resolve refPath refHash (pre ++ post)
    ∧ findDuplicatesCsvLoop resolve refPath refHash (pre ++ c :: post)
      = findDuplicatesCsvLoop resolve refPath refHash (pre ++ post)
    ∧ findDuplicatesTextLoop resolve refPath refHash [c] = []
    ∧ findDuplicatesCsvLoop resolve refPath refHash [c] = [] := by
  have ht : classifyText resolve refPath refHash c = none := by
    simp [classifyText, h]
  have hc : classifyCsv resolve refPath refHash c = none := by
    simp [classifyCsv, h]
  exact ⟨textLoop_skip resolve refPath refHash pre post c ht,
    csvLoop_skip resolve refPath refHash pre post c hc,
    by simp [textLoop_eq_filterMap, ht],
    by simp [csvLoop_eq_filterMap, hc]⟩

/-- Witness for C4: the reference image sitting in the scanned directory
is skipped even though its fingerprint is at distance 0. -/
theorem self_match_skipped_witness :
    findDuplicatesTextLoop id "dir/ref.jpg" [true, false]
        ([] ++ (⟨"dir/ref.jpg", some [true, false]⟩ : Candidate)
          :: [⟨"dir/a.png", some [true, false]⟩])
      = findDuplicatesTextLoop id "dir/ref.jpg" [true, false]
          ([] ++ [⟨"dir/a.png", some [true, false]⟩])
    ∧ findDuplicatesCsvLoop id "dir/ref.jpg" [true, false]
        ([] ++ (⟨"dir/ref.jpg", some [true, false]⟩ : Candidate)
          :: [⟨"dir/a.png", some [true, false]⟩])
      = findDuplicatesCsvLoop id "dir/ref.jpg" [true, false]
          ([] ++ [⟨"dir/a.png", some [true, false]⟩])
    ∧ findDuplicatesTextLoop id "dir/ref.jpg" [true, false]
        [⟨"dir/ref.jpg", some [true, false]⟩] = []
    ∧ findDuplicatesCsvLoop id "dir/ref.jpg" [true, false]
        [⟨"dir/ref.jpg", some [true, false]⟩] = [] :=
  self_match_skipped id "dir/ref.jpg" [true, false] []
    [⟨"dir/a.png", some [true, false]⟩]
    ⟨"dir/ref.jpg", some [true, false]⟩ rfl

/-- C6: when the reference image cannot be opened or decoded the run
aborts immediately: for any candidate list, neither variant scans
anything or creates an output file (result `none`). -/
theorem reference_decode_failure_aborts (resolve : String → String)
    (refPath : String) (cs : List Candidate) :
    runText resolve refPath none cs = none
    ∧ runCsv resolve refPath none cs = none :=
  ⟨rfl, rfl⟩

/-- C5 counterexample: the filename `_front.jpg` contains an underscore
delimiter, yet the emitted record's product id is the full filename and
not the (empty) leading underscore-delimited token. -/
theorem leading_underscore_record_breaks_claim :
    ('_' ∈ "_front.jpg".toList)
    ∧ findDuplicatesCsvLoop id "ref.jpg" [true, false]
        [⟨"gallery/_front.jpg", some [true, false]⟩]
      = [{ productId := "_front.jpg", assetId := "_front",
           filename := "_front.jpg" }]
    ∧ leadingToken "_front.jpg" = ""
    ∧ ("_front.jpg" : String) ≠ leadingToken "_front.jpg" :=
  ⟨by decide, by decide, by decide, by decide⟩

/-- C5 (amended): every record emitted by the CSV loop carries an asset
id equal to the filename without its extension, and a product id equal
to the leading underscore-delimited token when the filename contains an
underscore AND that token is nonempty; otherwise (no underscore, or a
filename beginning with an underscore) the product id is the full
filename, extension included. -/
theorem csv_record_identifier_fields (resolve : String → String)
    (refPath : String) (refHash : Fingerprint) (cs : List Candidate)
    (r : MatchRecord)
    (h : r ∈ findDuplicatesCsvLoop resolve refPath refHash cs) :
    r.assetId = splitextStem r.filename
    ∧ r.productId =
        (if '_' ∈ r.filename.toList ∧ leadingToken r.filename ≠ ""
         then leadingToken r.filename else r.filename) := by
  rw [csvLoop_eq_filterMap, List.mem_filterMap] at h
  obtain ⟨c, _, hc⟩ := h
  unfold classifyCsv at hc
  by_cases hp : resolve c.path = resolve refPath
  · rw [if_pos hp] at hc
    cases hc
  · rw [if_neg hp] at hc
    cases hd : c.decode with
    | none =>
      rw [hd] at hc
      cases hc
    | some hh =>
      rw [hd] at hc
      have hc2 : (if hammingDistance refHash hh < similarityThreshold then
          some ({ productId := extract_product_id (basename c.path)
                  assetId := splitextStem (basename c.path)
                  filename := basename c.path } : MatchRecord)
          else none) = some r := hc
      by_cases hlt : hammingDistance refHash hh < similarityThreshold
      · rw [if_pos hlt] at hc2
        injection hc2 with hr
        subst hr
        exact ⟨rfl, extract_product_id_eq (basename c.path)⟩
      · rw [if_neg hlt] at hc2
        cases hc2

/-- Witness for the amended C5 at a concrete matching candidate
`SKU1_a.jpg`. -/
theorem csv_record_identifier_fields_witness :
    (⟨"SKU1", "SKU1_a", "SKU1_a.jpg"⟩ : MatchRecord).assetId
      = splitextStem (⟨"SKU1", "SKU1_a", "SKU1_a.jpg"⟩ : MatchRecord).filename
    ∧ (⟨"SKU1", "SKU1_a", "SKU1_a.jpg"⟩ : MatchRecord).productId =
        (if '_' ∈ (⟨"SKU1", "SKU1_a", "SKU1_a.jpg"⟩ : MatchRecord).filename.toList
            ∧ leadingToken (⟨"SKU1", "SKU1_a", "SKU1_a.jpg"⟩ : MatchRecord).filename ≠ ""
         then leadingToken (⟨"SKU1", "SKU1_a", "SKU1_a.jpg"⟩ : MatchRecord).filename
         else (⟨"SKU1", "SKU1_a", "SKU1_a.jpg"⟩ : MatchRecord).filename) :=
  csv_record_identifier_fields id "ref.jpg" [true, false]
    [⟨"SKU1_a.jpg", some [true, false]⟩]
    ⟨"SKU1", "SKU1_a", "SKU1_a.jpg"⟩ (by decide)

/-- C7: a candidate whose image fails to decode is recovered locally in
both variants: it contributes no record and the result on the remaining
candidates is exactly what it would be had the failing candidate not
been supplied, wherever it sits in the traversal. -/
theorem candidate_decode_failure_isolated (resolve : String → String)
    (refPath : String) (refHash : Fingerprint) (pre post : List Candidate)
    (p : String) :
    findDuplicatesTextLoop resolve refPath refHash
        (pre ++ (⟨p, none⟩ : Candidate) :: post)
      = findDuplicatesTextLoop resolve refPath refHash (pre ++ post)
    ∧ findDuplicatesCsvLoop resolve refPath refHash
        (pre ++ (⟨p, none⟩ : Candidate) :: post)
      = findDuplicatesCsvLoop resolve refPath refHash (pre ++ post) := by
  have ht : classifyText resolve refPath refHash ⟨p, none⟩ = none := by
    simp [classifyText]
  have hc : classifyCsv resolve refPath refHash ⟨p, none⟩ = none := by
    simp [classifyCsv]
  exact ⟨textLoop_skip resolve refPath refHash pre post _ ht,
    csvLoop_skip resolve refPath refHash pre post _ hc⟩

/-- C8: the aggregator is the order-preserving `filterMap` of the
per-candidate classification: matches appear in exactly the traversal
order of the candidates (the result distributes over concatenation and
is a sublist of the candidates' basenames in input order), with no
sorting, reordering, or deduplication beyond the threshold rule. -/
theorem match_order_preserved (resolve : String → String) (refPath : String)
    (refHash : Fingerprint) (cs ds : List Candidate) :
    findDuplicatesTextLoop resolve refPath refHash cs
      = cs.filterMap (classifyText resolve refPath refHash)
    ∧ findDuplicatesTextLoop resolve refPath refHash (cs ++ ds)
      = findDuplicatesTextLoop resolve refPath refHash cs
        ++ findDuplicatesTextLoop resolve refPath refHash ds
    ∧ List.Sublist (findDuplicatesTextLoop resolve refPath refHash cs)
        (cs.map fun c => basename c.path)
    ∧ findDuplicatesCsvLoop resolve refPath refHash (cs ++ ds)
      = findDuplicatesCsvLoop resolve refPath refHash cs
        ++ findDuplicatesCsvLoop resolve refPath refHash ds := by
  refine ⟨textLoop_eq_filterMap resolve refPath refHash cs, ?_, ?_, ?_⟩
  · simp [textLoop_eq_filterMap, List.filterMap_append]
  · rw [textLoop_eq_filterMap]
    apply filterMap_sublist_map
    intro a b hab
    unfold classifyText at hab
    by_cases hp : resolve a.path = resolve refPath
    · rw [if_pos hp] at hab
      cases hab
    · rw [if_neg hp] at hab
      cases hd : a.decode with
      | none =>
        rw [hd] at hab
        cases hab
      | some hh =>
        rw [hd] at hab
        have hab2 : (if hammingDistance refHash hh < similarityThreshold then
            some (basename a.path) else none) = some b := hab
        by_cases hlt : hammingDistance refHash hh < similarityThreshold
        · rw [if_pos hlt] at hab2
          injection hab2 with hab2
          exact hab2.symm
        · rw [if_neg hlt] at hab2
          cases hab2
  · simp [csvLoop_eq_filterMap, List.filterMap_append]

/-- C9: in the text variants, a nonempty result is rendered as the
filenames separated by single newline characters with no trailing
newline after the last one, and a single match renders as exactly that
filename with no newline at all. -/
theorem text_output_no_trailing_newline (ds : List String) (l : String) :
    renderText (ds ++ [l])
      = (if ds.isEmpty then "" else pyJoin "\n" ds ++ "\n") ++ l
    ∧ renderText [l] = l := by
  constructor
  · cases ds with
    | nil => simp [renderText, pyJoin]
    | cons x t =>
      have hne : (x :: t) ≠ ([] : List String) := by simp
      have hlen : ¬ ((x :: t) ++ [l]).length = 0 := by simp
      unfold renderText
      rw [if_neg hlen, pyJoin_append_singleton "\n" l (x :: t) hne]
      simp
  · simp [renderText, pyJoin]

/-- C10: a matched filename beginning with an underscore takes the
no-delimiter fallback: the derived product id is the full filename,
never the empty string. -/
theorem leading_underscore_fallback (f : String)
    (h : f.toList.head? = some '_') :
    extract_product_id f = f ∧ extract_product_id f ≠ "" := by
  obtain ⟨t, ht⟩ : ∃ t, f.toList = '_' :: t := by
    cases hf : f.toList with
    | nil => rw [hf] at h; cases h
    | cons a u =>
      rw [hf] at h
      simp only [List.head?_cons, Option.some_inj] at h
      exact ⟨u, by rw [h]⟩
  have hlead : leadingToken f = "" := by
    unfold leadingToken
    rw [ht]
    rfl
  have hfull : extract_product_id f = f := by
    rw [extract_product_id_eq, if_neg]
    intro hc
    exact hc.2 hlead
  refine ⟨hfull, ?_⟩
  rw [hfull]
  intro hf0
  have h0 : ("" : String).toList = ([] : List Char) := rfl
  rw [hf0, h0] at ht
  cases ht

/-- Witness for C10 at `_front.jpg`. -/
theorem leading_underscore_fallback_witness :
    extract_product_id "_front.jpg" = "_front.jpg"
    ∧ extract_product_id "_front.jpg" ≠ "" :=
  leading_underscore_fallback "_front.jpg" (by decide)

end DupAssetHash
